import Mathlib

/-
Verification development for the radar_de_preco / atualiza_cmv repository.

Shallow embedding of:
  - src/backend/main.py       (calculate_recipe_totals, materialize_pre_preparo_nutrition,
                               update_recipe)
  - src/tools/cmv_calculator.py (calculate_cmv_change_percentage; recalculate_recipe_cost
                               shares the per-line cost logic embedded below)
  - src/tools/receipt_parser.py (extract_market_name, extract_total_amount, extract_items,
                               parse_receipt)

Python Decimal arithmetic is modelled by exact rationals (ℚ); all values appearing
here stay far below Decimal's 28-significant-digit context, where Decimal is exact
for + - * and the divisions used.  Python strings are modelled as lists of Char.
-/

namespace RadarCMV

abbrev Chars := List Char

/-- Python str.strip(): remove leading and trailing whitespace. -/
def pyStrip (cs : Chars) : Chars :=
  ((cs.dropWhile Char.isWhitespace).reverse.dropWhile Char.isWhitespace).reverse

/-- Nonempty all-digit check: Python str.isdigit (ASCII digits suffice here). -/
def pyIsDigit (cs : Chars) : Bool :=
  !cs.isEmpty && cs.all Char.isDigit

/-- `isPrefixListOf pat cs`: pat is a prefix of cs (exact characters). -/
def isPrefixListOf : Chars → Chars → Bool
  | [], _ => true
  | _ :: _, [] => false
  | a :: as, b :: bs => a == b && isPrefixListOf as bs

/-- Python `pat in hay` substring containment. -/
def containsSub (hay pat : Chars) : Bool :=
  match hay with
  | [] => pat.isEmpty
  | _ :: rest => isPrefixListOf pat hay || containsSub rest pat

/- ===== Cost engine: backend/main.py `calculate_recipe_totals` (lines 524-561).
   The identical per-line logic also appears in cmv_calculator.recalculate_recipe_cost
   (lines 50-74). ===== -/

/-- One entry of the `calc_ingredients` list built by create_recipe / update_recipe. -/
structure CalcIngredient where
  quantity : ℚ
  current_price : ℚ
  yield_coefficient : ℚ
  category : Chars
  nutritional_ref_id : Option String
deriving DecidableEq

/-- `effective_price = price / yield_coeff if yield_coeff > 0 else price`. -/
def effUnitPrice (i : CalcIngredient) : ℚ :=
  if 0 < i.yield_coefficient then i.current_price / i.yield_coefficient
  else i.current_price

/-- `item_cost = effective_price * qty`. -/
def lineCost (i : CalcIngredient) : ℚ :=
  effUnitPrice i * i.quantity

/-- `category and 'EMBALAGEM' in category.upper()` (truthiness of the Python string
plus substring test after per-character upper-casing). -/
def isPackagingCat (cs : Chars) : Bool :=
  !cs.isEmpty && containsSub (cs.map Char.toUpper) ("EMBALAGEM".toList)

/-- The accumulation loop of calculate_recipe_totals: running
(ingredients_cost, packaging_cost, total_weight) accumulators. -/
def calcAcc : List CalcIngredient → ℚ → ℚ → ℚ → ℚ × ℚ × ℚ
  | [], ic, pc, w => (ic, pc, w)
  | i :: rest, ic, pc, w =>
    if isPackagingCat i.category then calcAcc rest ic (pc + lineCost i) w
    else calcAcc rest (ic + lineCost i) pc (w + i.quantity)

/-- Result record of calculate_recipe_totals. -/
structure RecipeTotals where
  current_cost : ℚ
  ingredients_cost : ℚ
  packaging_cost : ℚ
  total_weight_kg : ℚ
  cmv_per_unit : ℚ
  cmv_per_kg : ℚ
deriving DecidableEq

/-- backend/main.py lines 524-561. -/
def calculate_recipe_totals (yield_units : ℚ) (ingredients : List CalcIngredient)
    (labor_cost : ℚ) : RecipeTotals :=
  let acc := calcAcc ingredients 0 0 0
  let total := acc.1 + acc.2.1 + labor_cost
  { current_cost := total
    ingredients_cost := acc.1
    packaging_cost := acc.2.1
    total_weight_kg := acc.2.2
    cmv_per_unit := if 0 < yield_units then total / yield_units else 0
    cmv_per_kg := if 0 < acc.2.2 then total / acc.2.2 else 0 }

/- ===== cmv_calculator.py `calculate_cmv_change_percentage` (lines 147-156) ===== -/

/-- Floor of a rational as an integer (computable: numerator floor-divided by
denominator; the denominator of a ℚ is positive). -/
def ratFloor (x : ℚ) : ℤ :=
  x.num.fdiv x.den

/-- Round-half-to-even on integers scaled from a rational (the tie rule of
Decimal.quantize's default ROUND_HALF_EVEN). -/
def roundHalfEvenInt (x : ℚ) : ℤ :=
  let n := ratFloor x
  let f := x - n
  if f < 1 / 2 then n
  else if 1 / 2 < f then n + 1
  else if n % 2 = 0 then n else n + 1

/-- `change.quantize(Decimal("0.01"))`: round to 2 decimal places, ties to even. -/
def round2 (x : ℚ) : ℚ :=
  (roundHalfEvenInt (x * 100) : ℚ) / 100

/-- cmv_calculator.py lines 147-156. -/
def calculate_cmv_change_percentage (old_cost new_cost : ℚ) : ℚ :=
  if old_cost = 0 then 0
  else round2 (((new_cost - old_cost) / old_cost) * 100)

/- ===== Nutrition aggregator: backend/main.py `materialize_pre_preparo_nutrition`
   (lines 563-646) ===== -/

/-- A row of the `nutritional_ref` table.  Python reads each nutrient with
`ref_data.get(key) or 0`, so missing/None values are modelled as the field being 0. -/
structure NutriRef where
  base_qty_g : ℚ
  energy_kcal : ℚ
  energy_kj : ℚ
  protein_g : ℚ
  carbs_g : ℚ
  lipid_g : ℚ
  saturated_fat_g : ℚ
  trans_fat_g : ℚ
  fiber_g : ℚ
  sodium_mg : ℚ
deriving DecidableEq

/-- The row written back to `nutritional_ref` (insert or update payload). -/
structure NutriData where
  description : String
  category : String
  tbca_code : String
  base_qty_g : ℚ
  energy_kcal : ℚ
  energy_kj : ℚ
  protein_g : ℚ
  carbs_g : ℚ
  lipid_g : ℚ
  saturated_fat_g : ℚ
  trans_fat_g : ℚ
  fiber_g : ℚ
  sodium_mg : ℚ
deriving DecidableEq

/-- Result of materialize_pre_preparo_nutrition: the returned reference id plus the
store writes performed (updates keyed by id, inserts of new rows). -/
structure MatResult where
  returned : Option String
  updates : List (String × NutriData)
  inserts : List NutriData
deriving DecidableEq

/-- Running accumulators of the nutrition loop plus the `has_any_data` flag. -/
structure NutriAcc where
  kcal : ℚ
  kj : ℚ
  protein : ℚ
  carbs : ℚ
  lipid : ℚ
  satFat : ℚ
  transFat : ℚ
  fiber : ℚ
  sodium : ℚ
  hasAny : Bool
deriving DecidableEq

/-- One iteration of the loop over calc_ingredients: skip lines without a reference
or whose reference is not found; `base_qty_g or 100` maps a stored 0 to 100, and a
negative base is skipped.  `store` is the keyed nutritional_ref lookup (every looked-up
id is in the fetched `ref_ids` set, so the refs_map lookup is the table lookup). -/
def nutriStep (store : String → Option NutriRef) (a : NutriAcc) (i : CalcIngredient) :
    NutriAcc :=
  match i.nutritional_ref_id with
  | none => a
  | some rid =>
    match store rid with
    | none => a
    | some r =>
      let base := if r.base_qty_g = 0 then 100 else r.base_qty_g
      if base ≤ 0 then a
      else
        let m := i.quantity * 1000 / base
        { kcal := a.kcal + r.energy_kcal * m
          kj := a.kj + r.energy_kj * m
          protein := a.protein + r.protein_g * m
          carbs := a.carbs + r.carbs_g * m
          lipid := a.lipid + r.lipid_g * m
          satFat := a.satFat + r.saturated_fat_g * m
          transFat := a.transFat + r.trans_fat_g * m
          fiber := a.fiber + r.fiber_g * m
          sodium := a.sodium + r.sodium_mg * m
          hasAny := true }

/-- The empty accumulator state. -/
def nutriAccInit : NutriAcc := ⟨0, 0, 0, 0, 0, 0, 0, 0, 0, false⟩

/-- The whole accumulation loop. -/
def nutriFold (store : String → Option NutriRef) (ings : List CalcIngredient) : NutriAcc :=
  ings.foldl (nutriStep store) nutriAccInit

/-- backend/main.py lines 563-646.  `freshRefId` models the id generated by a
successful insert, `freshCode` the generated `PRE-...` tbca code. -/
def materialize_pre_preparo_nutrition (store : String → Option NutriRef)
    (freshRefId freshCode : String) (recipe_name : String)
    (calc_ingredients : List CalcIngredient) (total_weight_kg : ℚ)
    (existing_ref_id : Option String) : MatResult :=
  if total_weight_kg ≤ 0 then ⟨existing_ref_id, [], []⟩
  else if (calc_ingredients.filterMap (·.nutritional_ref_id)).isEmpty then
    ⟨existing_ref_id, [], []⟩
  else
    let acc := nutriFold store calc_ingredients
    if !acc.hasAny then ⟨existing_ref_id, [], []⟩
    else
      let twg := total_weight_kg * 1000
      if twg ≤ 0 then ⟨existing_ref_id, [], []⟩
      else
        let ratio := 100 / twg
        let data : NutriData :=
          { description := "Pré-preparo: " ++ recipe_name
            category := "Pre-preparo"
            tbca_code := freshCode
            base_qty_g := 100
            energy_kcal := round2 (acc.kcal * ratio)
            energy_kj := round2 (acc.kj * ratio)
            protein_g := round2 (acc.protein * ratio)
            carbs_g := round2 (acc.carbs * ratio)
            lipid_g := round2 (acc.lipid * ratio)
            saturated_fat_g := round2 (acc.satFat * ratio)
            trans_fat_g := round2 (acc.transFat * ratio)
            fiber_g := round2 (acc.fiber * ratio)
            sodium_mg := round2 (acc.sodium * ratio) }
        match existing_ref_id with
        | some rid => ⟨some rid, [(rid, data)], []⟩
        | none => ⟨some freshRefId, [], [data]⟩

/- ===== backend/main.py `update_recipe` (lines 817-890) ===== -/

/-- A row of the `ingredients` table as read by update_recipe's price query. -/
structure IngredientRow where
  current_price : ℚ
  yield_coefficient : ℚ
  category : Chars
  nutritional_ref_id : Option String
deriving DecidableEq

/-- The part of a `recipes` row that update_recipe reads back. -/
structure RecipeRow where
  derived_ingredient_id : Option String
deriving DecidableEq

/-- One payload ingredient line. -/
structure RecipeIngredientInput where
  ingredient_id : String
  quantity : ℚ
deriving DecidableEq

/-- The RecipeInput payload (pass-through metadata fields such as sku/product_id,
which update_recipe copies verbatim, are omitted). -/
structure RecipeInput where
  name : String
  yield_units : ℚ
  labor_cost : ℚ
  is_pre_preparo : Bool
  production_unit : String
  ingredients : List RecipeIngredientInput

/-- The storage collaborator: keyed lookup into the three tables update_recipe reads. -/
structure Store where
  ingredients : String → Option IngredientRow
  recipes : String → Option RecipeRow
  nutri : String → Option NutriRef

/-- The ingredient row written for a pre-preparo recipe's derived ingredient. -/
structure DerivedIngData where
  name : String
  category : String
  current_price : ℚ
  yield_coefficient : ℚ
  unit : String
  nutritional_ref_id : Option String
deriving DecidableEq

/-- Everything update_recipe persists on success: the computed totals, the derived
ingredient link recorded on the recipe row, the derived-ingredient write (update of an
existing row or insert of a new one), the nutrition materialization result, and the
recipe_ingredients rows re-inserted after the delete. -/
structure UpdateOutcome where
  totals : RecipeTotals
  derived_ingredient_id : Option String
  derivedUpdate : Option (String × DerivedIngData)
  derivedInsert : Option DerivedIngData
  nutriResult : Option MatResult
  links : List (String × String × ℚ)
deriving DecidableEq

/-- backend/main.py lines 817-890.  `float(x or 0)` / `float(x or 1)` defaults are
mirrored (a stored yield_coefficient of 0 becomes 1); a missing recipe row raises,
surfaced as the error case; no other path fails — in particular nothing inspects
whether a payload ingredient is the recipe's own derived ingredient. -/
def update_recipe (store : Store) (freshIngId freshRefId freshCode : String)
    (recipe_id : String) (payload : RecipeInput) : Except String UpdateOutcome :=
  let calc_ingredients := payload.ingredients.map (fun item =>
    match store.ingredients item.ingredient_id with
    | some r =>
      { quantity := item.quantity
        current_price := r.current_price
        yield_coefficient := if r.yield_coefficient = 0 then 1 else r.yield_coefficient
        category := r.category
        nutritional_ref_id := r.nutritional_ref_id }
    | none =>
      { quantity := item.quantity
        current_price := 0
        yield_coefficient := 1
        category := []
        nutritional_ref_id := none })
  let totals := calculate_recipe_totals payload.yield_units calc_ingredients
    payload.labor_cost
  match store.recipes recipe_id with
  | none => .error ("Recipe " ++ recipe_id ++ " not found")
  | some r =>
    let links := payload.ingredients.map (fun i => (recipe_id, i.ingredient_id, i.quantity))
    if payload.is_pre_preparo then
      let existing_ref_id := (r.derived_ingredient_id.bind store.ingredients).bind
        (·.nutritional_ref_id)
      let mat := materialize_pre_preparo_nutrition store.nutri freshRefId freshCode
        payload.name calc_ingredients totals.total_weight_kg existing_ref_id
      let ing_data : DerivedIngData :=
        { name := payload.name
          category := "Pré-preparo"
          current_price := totals.cmv_per_unit
          yield_coefficient := 1
          unit := payload.production_unit
          nutritional_ref_id := mat.returned }
      match r.derived_ingredient_id with
      | some d => .ok ⟨totals, some d, some (d, ing_data), none, some mat, links⟩
      | none => .ok ⟨totals, some freshIngId, none, some ing_data, some mat, links⟩
    else
      .ok ⟨totals, r.derived_ingredient_id, none, none, none, links⟩

/- ===== Text parser: tools/receipt_parser.py ===== -/

/-- Characters matched by the regex class `[\d\.,]` (quantity/price tokens). -/
def isClassChar (c : Char) : Bool :=
  c.isDigit || c == ',' || c == '.'

/-- Splitting a character list at every newline, Python str.split("\n"). -/
def splitOnNl : Chars → List Chars
  | [] => [[]]
  | c :: rest =>
    if c == '\n' then [] :: splitOnNl rest
    else
      match splitOnNl rest with
      | [] => [[c]]
      | l :: ls => (c :: l) :: ls

/-- `[line.strip() for line in text.split("\n") if line.strip()]` (lines 62). -/
def itemLines (cs : Chars) : List Chars :=
  ((splitOnNl cs).map pyStrip).filter (fun l => !l.isEmpty)

/-- The pass_keywords stop-list of extract_items (line 65). -/
def passKeywords : List Chars :=
  ["TOTAL", "SUBTOTAL", "VALOR", "PAGAMENTO", "TROCO", "DINHEIRO", "CARTAO", "CREDITO",
   "DEBITO", "CPF", "CNPJ", "IMPOSTO", "TRIBUTO", "CAIXA", "OPERADOR", "DATA", "HORA",
   "AV", "AVENIDA", "RUA", "CEP", "TEL", "TELEFONE", "LOJA", "PDV"].map String.toList

/-- `any(k in clean_line for k in pass_keywords)` with clean_line = line.upper(). -/
def containsKeyword (line : Chars) : Bool :=
  passKeywords.any (fun k => containsSub (line.map Char.toUpper) k)

/-- Case-insensitive literal match: consumes the literal (first argument) from the
front of the text and returns the remainder, as a regex alternative under
re.IGNORECASE does. -/
def matchLitCI : Chars → Chars → Option Chars
  | [], t => some t
  | _ :: _, [] => none
  | l :: ls, t :: ts => if l.toLower == t.toLower then matchLitCI ls ts else none

/-- The unit alternation `(?:Kg|Un|Gf|L|M|PC|SC)` of the two-line item regex. -/
def unitLits : List Chars :=
  ["Kg", "Un", "Gf", "L", "M", "PC", "SC"].map String.toList

/-- The optional unit group: first alternative that matches is consumed, otherwise the
group matches empty.  (No alternative starts with a character another alternative
starts with, with x, with whitespace or with a `[\d\.,]` character, so this committed
choice coincides with the regex engine's backtracking search.) -/
def matchUnit (cs : Chars) : Chars :=
  match unitLits.findSome? (fun u => matchLitCI u cs) with
  | some rest => rest
  | none => cs

/-- Attempt of the two-line item pattern
`([\d\.,]+)\s*(?:Kg|Un|Gf|L|M|PC|SC)?\s*[xX]\s*([\d\.,]+)\s+([\d\.,]+)` at the start
of `cs`, returning the three captured groups.  Each `+`-group is taken greedily; since
every character class here is disjoint from what the following pattern element can
start with, greedy matching without backtracking computes exactly the regex match. -/
def matchAt (cs : Chars) : Option (Chars × Chars × Chars) :=
  let g1 := cs.takeWhile isClassChar
  if g1.isEmpty then none
  else
    let r1 := (cs.dropWhile isClassChar).dropWhile Char.isWhitespace
    let r2 := (matchUnit r1).dropWhile Char.isWhitespace
    match r2 with
    | [] => none
    | c :: r3 =>
      if c == 'x' || c == 'X' then
        let r4 := r3.dropWhile Char.isWhitespace
        let g2 := r4.takeWhile isClassChar
        if g2.isEmpty then none
        else
          let r5 := r4.dropWhile isClassChar
          if (r5.takeWhile Char.isWhitespace).isEmpty then none
          else
            let g3 := (r5.dropWhile Char.isWhitespace).takeWhile isClassChar
            if g3.isEmpty then none else some (g1, g2, g3)
      else none

/-- re.search for the two-line pattern: try every start position, leftmost wins. -/
def searchMulti : Chars → Option (Chars × Chars × Chars)
  | [] => none
  | c :: rest =>
    match matchAt (c :: rest) with
    | some g => some g
    | none => searchMulti rest

/-- Numeric value of a digit string. -/
def natOfDigits (cs : Chars) : ℕ :=
  cs.foldl (fun a c => a * 10 + (c.toNat - 48)) 0

/-- Python Decimal(s) on the digit/dot strings this parser produces: at most one dot,
at least one digit, no other characters; value intPart.frac as an exact rational
(built with Rat.divInt, which equals intPart + frac/10^len).  Malformed strings (the
Decimal constructor raising InvalidOperation) give none. -/
def parseDec (cs : Chars) : Option ℚ :=
  if cs.any (fun c => !(c.isDigit || c == '.')) then none
  else if 1 < (cs.filter (· == '.')).length then none
  else if (cs.filter (·.isDigit)).isEmpty then none
  else
    let intPart := cs.takeWhile (· != '.')
    let frac := (cs.dropWhile (· != '.')).drop 1
    some (Rat.divInt (natOfDigits intPart * 10 ^ frac.length + natOfDigits frac)
      (10 ^ frac.length))

/-- `s.replace(",", ".")`. -/
def commaToDot (cs : Chars) : Chars :=
  cs.map (fun c => if c == ',' then '.' else c)

/-- Lines 93-96: if the (comma-replaced) total string has no separator and is longer
than 3 characters, reinsert a decimal point before the last two digits. -/
def ocrFixTotal (cs : Chars) : Chars :=
  if !cs.contains '.' && 3 < cs.length then
    cs.take (cs.length - 2) ++ '.' :: cs.drop (cs.length - 2)
  else cs

/-- The OCR-noise alternation `(?:RR|NE|DS|CO|CS)` of the name cleaner. -/
def noisePairs : List Chars :=
  ["RR", "NE", "DS", "CO", "CS"].map String.toList

/-- `re.sub(r"^(?:RR|NE|DS|CO|CS)\s+", "", name, flags=re.IGNORECASE)`: remove a
leading noise pair followed by (all, greedy) whitespace. -/
def stripNoisePairs (cs : Chars) : Chars :=
  match noisePairs.findSome? (fun p =>
    (matchLitCI p cs).bind (fun rest =>
      match rest with
      | c :: _ => if c.isWhitespace then some (rest.dropWhile Char.isWhitespace) else none
      | [] => none)) with
  | some r => r
  | none => cs

/-- Lines 101-105: strip a leading `[\d\s\.]+` run, strip, then noise pairs. -/
def cleanItemName (line : Chars) : Chars :=
  stripNoisePairs (pyStrip (line.dropWhile (fun c => c.isDigit || c.isWhitespace || c == '.')))

/-- One parsed line item (raw_name, quantity, price). -/
structure RawItem where
  raw_name : Chars
  quantity : ℚ
  price : ℚ
deriving DecidableEq

/-- Strategy A (lines 76-117): match the two-line pattern against the next line;
quantity and total are Decimal-parsed after `,`→`.` replacement (a parse failure is
the caught exception, falling through to strategy B); the captured unit price is never
parsed; accept only if the cleaned name is longer than 3 and total > 0. -/
def strategyA (line nextLine : Chars) : Option RawItem :=
  match searchMulti nextLine with
  | none => none
  | some (g1, _g2, g3) =>
    match parseDec (commaToDot g1), parseDec (ocrFixTotal (commaToDot g3)) with
    | some qty, some total =>
      let nm := cleanItemName line
      if 3 < nm.length ∧ 0 < total then some ⟨nm, qty, total⟩ else none
    | _, _ => none

/-- Strategy B (lines 119-141), the trailing `^(.+?)\s+([\d,\.]+)$` pattern.  The
anchored lazy regex resolves to: the price group is the maximal trailing `[\d,\.]`
run, preceded by a nonempty whitespace run; the lazy name group is everything before
that whitespace run when nonempty, and otherwise (line = whitespace ++ price) a single
whitespace character, possible only when the whitespace run has length ≥ 2 — that name
strips to empty and always fails the length guard, as in the source.  Guards: price in
[0.50, 5000.00], stripped name longer than 2, no digit among the name's last three
characters; quantity fixed at 1. -/
def strategyB (line : Chars) : Option RawItem :=
  let rev := line.reverse
  let numR := rev.takeWhile isClassChar
  let afterNum := rev.dropWhile isClassChar
  let wsR := afterNum.takeWhile Char.isWhitespace
  let preR := afterNum.dropWhile Char.isWhitespace
  if numR.isEmpty || wsR.isEmpty then none
  else if preR.isEmpty && wsR.length < 2 then none
  else
    let nameRaw := if preR.isEmpty then line.take 1 else preR.reverse
    let name := pyStrip nameRaw
    match parseDec (commaToDot numR.reverse) with
    | none => none
    | some price =>
      if Rat.divInt 50 100 ≤ price ∧ price ≤ 5000 ∧ 2 < name.length ∧
          (name.drop (name.length - 3)).all (fun c => !c.isDigit) then
        some ⟨name, 1, price⟩
      else none

/-- The extract_items scan (lines 67-142): per line, skip short/keyword lines; try
strategy A against the next line, falling through to strategy B on the same line
otherwise.  On a strategy-A success the source blanks the consumed next line
(`lines[i+1] = ""`); that blank line is then unconditionally discarded by the
`len(line) < 5` guard (and can never act as anything else), so the recursion here
skips it directly, which keeps the recursion structural. -/
def extractLoop : List Chars → List RawItem
  | [] => []
  | [line] =>
    if line.length < 5 || containsKeyword line then []
    else
      match strategyB line with
      | some it => [it]
      | none => []
  | line :: nl :: rest2 =>
    if line.length < 5 || containsKeyword line then extractLoop (nl :: rest2)
    else
      match strategyA line nl with
      | some it => it :: extractLoop rest2
      | none =>
        match strategyB line with
        | some it => it :: extractLoop (nl :: rest2)
        | none => extractLoop (nl :: rest2)

/-- receipt_parser.py lines 49-143. -/
def extract_items (text : String) : List RawItem :=
  extractLoop (itemLines text.toList)

/-- The acceptance test of extract_market_name (line 23):
`len(line) > 3 and not line.replace(".", "").isdigit()`. -/
def marketCond (s : Chars) : Bool :=
  3 < s.length && !(pyIsDigit (s.filter (· != '.')))

/-- The loop of extract_market_name: first (stripped) accepted line wins. -/
def extractMarketLoop : List Chars → Option Chars
  | [] => none
  | l :: rest =>
    let s := pyStrip l
    if marketCond s then some s else extractMarketLoop rest

/-- receipt_parser.py lines 16-25: scan `text.strip().split("\n")[:5]`. -/
def extract_market_name (text : String) : Option Chars :=
  extractMarketLoop ((splitOnNl (pyStrip text.toList)).take 5)

/-- Attempt of `TOTAL[\s:]*R?\$?\s*([\d,\.]+)` at the start of cs (IGNORECASE);
returns the captured amount group.  The committed greedy steps coincide with the
regex: no element can start with a character the previous greedy step consumed. -/
def pat1At (cs : Chars) : Option Chars :=
  match matchLitCI ("TOTAL".toList) cs with
  | none => none
  | some r1 =>
    let r2 := r1.dropWhile (fun c => c.isWhitespace || c == ':')
    let r3 := match r2 with
      | c :: rest => if c == 'R' || c == 'r' then rest else r2
      | [] => r2
    let r4 := match r3 with
      | c :: rest => if c == '$' then rest else r3
      | [] => r3
    let g := (r4.dropWhile Char.isWhitespace).takeWhile isClassChar
    if g.isEmpty then none else some g

/-- Attempt of `VALOR\s+TOTAL[\s:]*R?\$?\s*([\d,\.]+)` at the start of cs. -/
def pat2At (cs : Chars) : Option Chars :=
  match matchLitCI ("VALOR".toList) cs with
  | none => none
  | some r1 =>
    if (r1.takeWhile Char.isWhitespace).isEmpty then none
    else pat1At (r1.dropWhile Char.isWhitespace)

/-- Attempt of `R\$\s*([\d,\.]+)\s*TOTAL` at the start of cs. -/
def pat3At (cs : Chars) : Option Chars :=
  match cs with
  | c1 :: '$' :: rest =>
    if c1 == 'R' || c1 == 'r' then
      let r1 := rest.dropWhile Char.isWhitespace
      let g := r1.takeWhile isClassChar
      if g.isEmpty then none
      else
        let r2 := (r1.dropWhile isClassChar).dropWhile Char.isWhitespace
        if (matchLitCI ("TOTAL".toList) r2).isSome then some g else none
    else none
  | _ => none

/-- re.search: try a pattern attempt at every position, leftmost match wins. -/
def searchPat (m : Chars → Option Chars) : Chars → Option Chars
  | [] => m []
  | c :: rest =>
    match m (c :: rest) with
    | some g => some g
    | none => searchPat m rest

/-- extract_total_amount's pattern loop (lines 37-44): first pattern whose match also
Decimal-parses wins; the amount string has dots removed (thousands separators) and
then commas turned into decimal points. -/
def tryPatterns : List (Chars → Option Chars) → Chars → Option ℚ
  | [], _ => none
  | p :: ps, cs =>
    match p cs with
    | some g =>
      match parseDec (commaToDot (g.filter (· != '.'))) with
      | some v => some v
      | none => tryPatterns ps cs
    | none => tryPatterns ps cs

/-- receipt_parser.py lines 28-46. -/
def extract_total_amount (text : String) : Option ℚ :=
  tryPatterns [searchPat pat1At, searchPat pat2At, searchPat pat3At] text.toList

/-- Result of parse_receipt. -/
structure ReceiptResult where
  market_name : Option Chars
  total_amount : Option ℚ
  items : List RawItem
deriving DecidableEq

/-- receipt_parser.py lines 146-161. -/
def parse_receipt (text : String) : ReceiptResult :=
  ⟨extract_market_name text, extract_total_amount text, extract_items text⟩

/- ===== Spec-side definition for claim C9 (refinement comparison) ===== -/

/-- Spec wording: a line that is "purely numeric/punctuation" — every character is a
digit or not alphanumeric. -/
def specPurelyNumericPunct (cs : Chars) : Bool :=
  cs.all (fun c => c.isDigit || !c.isAlphanum)

/-- Modelled from the spec's words (§4.1): "first line (within the first 5 non-empty
lines) that is longer than 3 characters and is not purely numeric/punctuation". -/
def specMarketName (text : String) : Option Chars :=
  ((((splitOnNl (pyStrip text.toList)).map pyStrip).filter (fun l => !l.isEmpty)).take 5).find?
    (fun l => 3 < l.length && !specPurelyNumericPunct l)

/- ===== Concrete inputs for the parser claims ===== -/

/-- The end-to-end input of claim C1. -/
def c1text : String := "LEITE INTEGRAL 1L    5.99\nTOTAL: R$ 5.99"

/-- Input for claim C9: line 6 is the first non-empty line after "AB" but lies outside
the code's 5-raw-line window because of the four empty lines. -/
def c9text : String := "AB\n\n\n\n\nMERCADO"

/- ===== Witness inputs ===== -/

def wIngA : CalcIngredient := ⟨2, 10, 1, [], none⟩

def wIngNeg : CalcIngredient := ⟨3, 7, 0, [], none⟩

def wIngNutri : CalcIngredient := ⟨1, 4, 1, [], some "X"⟩

/-- Store for C2: recipe "R" is pre-preparo and already produced derived ingredient
"D"; the payload below feeds "D" back into "R" — a direct derived-ingredient cycle. -/
def c2store : Store :=
  { ingredients := fun s => if s = "D" then some ⟨10, 1, "Pré-preparo".toList, none⟩ else none
    recipes := fun s => if s = "R" then some ⟨some "D"⟩ else none
    nutri := fun _ => none }

def c2payload : RecipeInput :=
  { name := "Molho Base"
    yield_units := 1
    labor_cost := 0
    is_pre_preparo := true
    production_unit := "KG"
    ingredients := [⟨"D", 2⟩] }

end RadarCMV

namespace RadarCMV

/- ===== Helper lemmas ===== -/

lemma calcAcc_spec (ings : List CalcIngredient) : ∀ ic pc w : ℚ,
    calcAcc ings ic pc w =
      (ic + ((ings.filter (fun i => !isPackagingCat i.category)).map lineCost).sum,
       pc + ((ings.filter (fun i => isPackagingCat i.category)).map lineCost).sum,
       w + ((ings.filter (fun i => !isPackagingCat i.category)).map (·.quantity)).sum) := by
  induction ings with
  | nil => intro ic pc w; simp [calcAcc]
  | cons i rest ih =>
    intro ic pc w
    by_cases h : isPackagingCat i.category
    · have h1 : (i :: rest).filter (fun j => !isPackagingCat j.category)
          = rest.filter (fun j => !isPackagingCat j.category) := by
        simp [List.filter_cons, h]
      have h2 : (i :: rest).filter (fun j => isPackagingCat j.category)
          = i :: rest.filter (fun j => isPackagingCat j.category) := by
        simp [List.filter_cons, h]
      simp only [calcAcc, if_pos h, ih, h1, h2, List.map_cons, List.sum_cons,
        Prod.mk.injEq]
      refine ⟨by ring_nf, by ring_nf, by ring_nf⟩
    · have h1 : (i :: rest).filter (fun j => !isPackagingCat j.category)
          = i :: rest.filter (fun j => !isPackagingCat j.category) := by
        simp [List.filter_cons, h]
      have h2 : (i :: rest).filter (fun j => isPackagingCat j.category)
          = rest.filter (fun j => isPackagingCat j.category) := by
        simp [List.filter_cons, h]
      simp only [calcAcc, if_neg h, ih, h1, h2, List.map_cons, List.sum_cons,
        Prod.mk.injEq]
      refine ⟨by ring, by ring_nf, by ring⟩

lemma totals_weight_nonneg (yu labor : ℚ) (ings : List CalcIngredient)
    (hq : ∀ i ∈ ings, 0 ≤ i.quantity) :
    0 ≤ (calculate_recipe_totals yu ings labor).total_weight_kg := by
  simp only [calculate_recipe_totals, calcAcc_spec]
  refine add_nonneg le_rfl (List.sum_nonneg ?_)
  intro q hqmem
  obtain ⟨i, hi, rfl⟩ := List.mem_map.mp hqmem
  exact hq i (List.mem_of_mem_filter hi)

/- ===== Claim C3 ===== -/

/-- Claim C3: calculate_recipe_totals never divides by zero: cmv_per_unit is exactly 0
when yield_units ≤ 0, cmv_per_kg is exactly 0 when total_weight_kg = 0, and otherwise
they equal current_cost / yield_units resp. current_cost / total_weight_kg.  Quantities
are nonnegative per the data model (spec §3). -/
theorem c3_cmv_division_policy (yu labor : ℚ) (ings : List CalcIngredient)
    (hq : ∀ i ∈ ings, 0 ≤ i.quantity) :
    ((yu ≤ 0 → (calculate_recipe_totals yu ings labor).cmv_per_unit = 0) ∧
     ((calculate_recipe_totals yu ings labor).total_weight_kg = 0 →
        (calculate_recipe_totals yu ings labor).cmv_per_kg = 0)) ∧
    ((0 < yu → (calculate_recipe_totals yu ings labor).cmv_per_unit =
        (calculate_recipe_totals yu ings labor).current_cost / yu) ∧
     ((calculate_recipe_totals yu ings labor).total_weight_kg ≠ 0 →
        (calculate_recipe_totals yu ings labor).cmv_per_kg =
          (calculate_recipe_totals yu ings labor).current_cost /
            (calculate_recipe_totals yu ings labor).total_weight_kg)) := by
  have hw := totals_weight_nonneg yu labor ings hq
  constructor
  · constructor
    · intro hyu
      simp [calculate_recipe_totals, not_lt.mpr hyu]
    · intro hz
      simp only [calculate_recipe_totals] at hz ⊢
      simp [hz]
  · constructor
    · intro hyu
      simp [calculate_recipe_totals, hyu]
    · intro hnz
      have hpos : 0 < (calculate_recipe_totals yu ings labor).total_weight_kg :=
        lt_of_le_of_ne hw (Ne.symm hnz)
      simp only [calculate_recipe_totals] at hpos ⊢
      simp [hpos]

/-- Witness for C3 at yield_units = 0 and an empty ingredient list (weight 0). -/
theorem c3_cmv_division_policy_witness :
    (calculate_recipe_totals 0 [] 5).cmv_per_unit = 0 ∧
    (calculate_recipe_totals 0 [] 5).cmv_per_kg = 0 := by
  have h := c3_cmv_division_policy 0 5 [] (by intro i hi; cases hi)
  exact ⟨h.1.1 le_rfl, h.1.2 (by decide)⟩

/- ===== Claim C4 ===== -/

/-- Claim C4: calculate_recipe_totals is linear in each line's quantity and inversely
scaled by yield_coefficient: doubling one line's quantity adds that line's cost once
more to current_cost, and halving its yield_coefficient doubles the effective unit
price, for any line with yield_coefficient > 0. -/
theorem c4_linearity (yu labor : ℚ) (pre post : List CalcIngredient)
    (i : CalcIngredient) (h : 0 < i.yield_coefficient) :
    (calculate_recipe_totals yu (pre ++ { i with quantity := 2 * i.quantity } :: post)
        labor).current_cost
      = (calculate_recipe_totals yu (pre ++ i :: post) labor).current_cost + lineCost i ∧
    effUnitPrice { i with yield_coefficient := i.yield_coefficient / 2 }
      = 2 * effUnitPrice i := by
  constructor
  · have hcat : isPackagingCat ({ i with quantity := 2 * i.quantity } :
        CalcIngredient).category = isPackagingCat i.category := rfl
    have hlc : lineCost { i with quantity := 2 * i.quantity } = 2 * lineCost i := by
      simp only [lineCost, effUnitPrice]
      ring_nf
    by_cases hp : isPackagingCat i.category
    · simp only [calculate_recipe_totals, calcAcc_spec, List.filter_append,
        List.filter_cons, hcat, hp]
      simp [hlc]
      ring
    · simp only [calculate_recipe_totals, calcAcc_spec, List.filter_append,
        List.filter_cons, hcat, hp]
      simp [hlc]
      ring
  · have h2 : 0 < i.yield_coefficient / 2 := by linarith
    simp only [effUnitPrice, if_pos h2, if_pos h]
    have hne : i.yield_coefficient ≠ 0 := ne_of_gt h
    field_simp
    try ring

/-- Witness for C4 at a concrete line (price 10, quantity 2, yield 1). -/
theorem c4_linearity_witness :
    (calculate_recipe_totals 4 ([] ++ { wIngA with quantity := 2 * wIngA.quantity } :: [])
        5).current_cost
      = (calculate_recipe_totals 4 ([] ++ wIngA :: []) 5).current_cost + lineCost wIngA ∧
    effUnitPrice { wIngA with yield_coefficient := wIngA.yield_coefficient / 2 }
      = 2 * effUnitPrice wIngA :=
  c4_linearity 4 5 [] [] wIngA (by norm_num [wIngA])

/- ===== Claim C5 ===== -/

/-- Claim C5: packaging-category lines accumulate into packaging_cost and never
contribute quantity to total_weight_kg; all other lines accumulate into
ingredients_cost and contribute their quantity to total_weight_kg; and
current_cost = ingredients_cost + packaging_cost + labor_cost. -/
theorem c5_packaging_split (yu labor : ℚ) (ings : List CalcIngredient) :
    (calculate_recipe_totals yu ings labor).packaging_cost
      = ((ings.filter (fun i => isPackagingCat i.category)).map lineCost).sum ∧
    (calculate_recipe_totals yu ings labor).ingredients_cost
      = ((ings.filter (fun i => !isPackagingCat i.category)).map lineCost).sum ∧
    (calculate_recipe_totals yu ings labor).total_weight_kg
      = ((ings.filter (fun i => !isPackagingCat i.category)).map (·.quantity)).sum ∧
    (calculate_recipe_totals yu ings labor).current_cost
      = (calculate_recipe_totals yu ings labor).ingredients_cost
        + (calculate_recipe_totals yu ings labor).packaging_cost + labor := by
  simp only [calculate_recipe_totals, calcAcc_spec]
  refine ⟨by ring, by ring, by ring, by ring_nf⟩

/- ===== Claim C7 ===== -/

/-- Claim C7: calculate_cmv_change_percentage returns 0 whenever old_cost = 0; for
old_cost ≠ 0 it returns ((new_cost - old_cost) / old_cost) * 100 rounded to two
decimal places (source rounding: Decimal.quantize, ties to even); and at
(100, 115) it returns exactly 15.00. -/
theorem c7_change_percentage (old_cost new_cost : ℚ) :
    (old_cost = 0 → calculate_cmv_change_percentage old_cost new_cost = 0) ∧
    (old_cost ≠ 0 → calculate_cmv_change_percentage old_cost new_cost
        = round2 (((new_cost - old_cost) / old_cost) * 100)) ∧
    calculate_cmv_change_percentage 100 115 = 15 := by
  refine ⟨?_, ?_, ?_⟩
  · intro h; simp [calculate_cmv_change_percentage, h]
  · intro h; simp [calculate_cmv_change_percentage, h]
  · norm_num [calculate_cmv_change_percentage, round2, roundHalfEvenInt, ratFloor]

/-- Witness for C7: old_cost = 0 returns 0, and the general formula at (100, 115). -/
theorem c7_change_percentage_witness :
    calculate_cmv_change_percentage 0 7 = 0 ∧
    calculate_cmv_change_percentage 100 115 = round2 (((115 - 100) / 100) * 100) :=
  ⟨(c7_change_percentage 0 7).1 rfl,
   (c7_change_percentage 100 115).2.1 (by norm_num)⟩

/- ===== Claim C10 ===== -/

/-- Claim C10 (implicit): for a line with yield_coefficient ≤ 0 no division is
attempted: the raw price is used as the effective unit price, so line cost is
price * quantity, and calculate_recipe_totals stays total (current_cost of a
one-line recipe is price * quantity + labor regardless of category). -/
theorem c10_nonpositive_yield (yu labor : ℚ) (i : CalcIngredient)
    (h : i.yield_coefficient ≤ 0) :
    effUnitPrice i = i.current_price ∧
    lineCost i = i.current_price * i.quantity ∧
    (calculate_recipe_totals yu [i] labor).current_cost
      = i.current_price * i.quantity + labor := by
  have he : effUnitPrice i = i.current_price := by
    simp [effUnitPrice, not_lt.mpr h]
  have hl : lineCost i = i.current_price * i.quantity := by
    simp [lineCost, he]
  refine ⟨he, hl, ?_⟩
  by_cases hp : isPackagingCat i.category
  · simp [calculate_recipe_totals, calcAcc_spec, List.filter_cons, hp, hl]
  · simp [calculate_recipe_totals, calcAcc_spec, List.filter_cons, hp, hl]

/-- Witness for C10 at yield_coefficient = 0 (price 7, quantity 3). -/
theorem c10_nonpositive_yield_witness :
    effUnitPrice wIngNeg = wIngNeg.current_price ∧
    lineCost wIngNeg = wIngNeg.current_price * wIngNeg.quantity ∧
    (calculate_recipe_totals 2 [wIngNeg] 3).current_cost
      = wIngNeg.current_price * wIngNeg.quantity + 3 :=
  c10_nonpositive_yield 2 3 wIngNeg (by norm_num [wIngNeg])

/- ===== Claim C8 ===== -/

lemma nutriFold_unresolved (store : String → Option NutriRef) :
    ∀ (ings : List CalcIngredient) (a : NutriAcc),
      (∀ i ∈ ings, ∀ rid, i.nutritional_ref_id = some rid → store rid = none) →
      List.foldl (nutriStep store) a ings = a := by
  intro ings
  induction ings with
  | nil => intro a _; rfl
  | cons i rest ih =>
    intro a h
    have hstep : nutriStep store a i = a := by
      unfold nutriStep
      cases hr : i.nutritional_ref_id with
      | none => rfl
      | some rid =>
        have := h i (List.mem_cons_self i rest) rid hr
        simp [this]
    rw [List.foldl_cons, hstep]
    exact ih a (fun j hj => h j (List.mem_cons_of_mem i hj))

/-- Claim C8: when no ingredient line carries a nutrition reference that resolves to
stored nutrition data (no linked reference, or the referenced row is absent),
materialize_pre_preparo_nutrition returns the pre-existing reference id unchanged and
performs no update and no insert. -/
theorem c8_materialize_noop (store : String → Option NutriRef)
    (freshRefId freshCode recipe_name : String) (ings : List CalcIngredient)
    (twk : ℚ) (existing : Option String)
    (h : ∀ i ∈ ings, ∀ rid, i.nutritional_ref_id = some rid → store rid = none) :
    materialize_pre_preparo_nutrition store freshRefId freshCode recipe_name ings twk
      existing = ⟨existing, [], []⟩ := by
  unfold materialize_pre_preparo_nutrition
  by_cases h1 : twk ≤ 0
  · simp [h1]
  · simp only [if_neg h1]
    by_cases h2 : (ings.filterMap (·.nutritional_ref_id)).isEmpty
    · simp [h2]
    · simp only [h2, Bool.false_eq_true, if_false]
      have hacc : nutriFold store ings = nutriAccInit :=
        nutriFold_unresolved store ings nutriAccInit h
      simp only [nutriFold, nutriAccInit] at hacc ⊢
      simp [hacc]

/-- Witness for C8: one line linked to reference "X" that the store does not contain;
the existing reference id "E" is returned with no writes. -/
theorem c8_materialize_noop_witness :
    materialize_pre_preparo_nutrition (fun _ => none) "N" "C" "Receita" [wIngNutri] 2
      (some "E") = ⟨some "E", [], []⟩ :=
  c8_materialize_noop (fun _ => none) "N" "C" "Receita" [wIngNutri] 2 (some "E")
    (fun _ _ _ _ => rfl)

/- ===== Claim C1 ===== -/

/-- Claim C1 is false on the code: for the input
"LEITE INTEGRAL 1L    5.99\nTOTAL: R$ 5.99" parse_receipt does NOT return one
LEITE item with price 5.99 and total 5.99 — it returns no items at all (and the
total parses as 599). -/
theorem c1_end_to_end_counterexample :
    ¬ (∃ it : RawItem, (parse_receipt c1text).items = [it] ∧
        containsSub it.raw_name ("LEITE".toList) = true ∧
        it.price = (599 : ℚ) / 100 ∧ it.quantity = 1 ∧
        (parse_receipt c1text).total_amount = some ((599 : ℚ) / 100)) := by
  have hitems : (parse_receipt c1text).items = [] := by decide
  rintro ⟨it, hit, -⟩
  rw [hitems] at hit
  cases hit

/-- Claim C1 amended: on "LEITE INTEGRAL 1L    5.99\nTOTAL: R$ 5.99" parse_receipt
returns zero items — the candidate single-line item is rejected because the last
three characters of the name "LEITE INTEGRAL 1L" contain a digit — and
total_amount = 599, because "." is stripped as a thousands separator before the
amount is parsed. -/
theorem c1_end_to_end_amended :
    (parse_receipt c1text).items = [] ∧
    (parse_receipt c1text).total_amount = some (599 : ℚ) := by
  decide

/- ===== Claim C9 ===== -/

/-- Claim C9 is false on the code: extract_market_name scans the first 5 raw lines,
not the first 5 non-empty lines.  On "AB\n\n\n\n\nMERCADO" the spec's reading
(specMarketName, modelled from the claim's words) picks "MERCADO", but the code
returns none because the four empty lines exhaust its 5-line window. -/
theorem c9_market_name_counterexample :
    extract_market_name c9text = none ∧
    specMarketName c9text = some ("MERCADO".toList) := by
  decide

lemma extractMarketLoop_eq_find? (ls : List Chars) :
    extractMarketLoop ls = (ls.map pyStrip).find? marketCond := by
  induction ls with
  | nil => rfl
  | cons l rest ih =>
    by_cases h : marketCond (pyStrip l)
    · simp [extractMarketLoop, List.find?_cons, h]
    · simp only [extractMarketLoop, if_neg h, ih, List.map_cons]
      rw [List.find?_cons]
      simp [h]

/-- Claim C9 amended: extract_market_name returns the first line among the first 5
raw lines (empty lines included) of the whitespace-stripped text whose stripped form
is longer than 3 characters and is not, after removing dots, a nonempty all-digit
string; otherwise none. -/
theorem c9_market_name_amended (text : String) :
    extract_market_name text
      = (((splitOnNl (pyStrip text.toList)).take 5).map pyStrip).find? marketCond := by
  rw [extract_market_name, extractMarketLoop_eq_find?]

/- ===== Claim C6 ===== -/

lemma isEmpty_false_of_ne {l : Chars} (h : l ≠ []) : l.isEmpty = false := by
  cases l with
  | nil => exact absurd rfl h
  | cons a l => rfl

lemma class_not_ws {c : Char} (h : isClassChar c = true) : c.isWhitespace = false := by
  cases hw : c.isWhitespace
  · rfl
  · exfalso
    have hc := hw
    simp only [Char.isWhitespace, Bool.or_eq_true, decide_eq_true_eq] at hc
    rcases hc with ((rfl | rfl) | rfl) | rfl <;> exact absurd h (by decide)

lemma takeWhile_append_of (p : Char → Bool) :
    ∀ (a b : Chars), (∀ c ∈ a, p c = true) → (∀ c ∈ b.take 1, p c = false) →
    (a ++ b).takeWhile p = a ∧ (a ++ b).dropWhile p = b := by
  intro a
  induction a with
  | nil =>
    intro b _ hb
    cases b with
    | nil => simp
    | cons c bs =>
      have := hb c (by simp)
      simp [List.takeWhile_cons, List.dropWhile_cons, this]
  | cons x xs ih =>
    intro b hx hb
    have hpx : p x = true := hx x (by simp)
    have ih' := ih b (fun c hc => hx c (by simp [hc])) hb
    simp [List.takeWhile_cons, List.dropWhile_cons, hpx, ih'.1, ih'.2]

lemma takeWhile_all (p : Char → Bool) (l : Chars) (h : ∀ c ∈ l, p c = true) :
    l.takeWhile p = l := by
  have := (takeWhile_append_of p l [] h (by simp)).1
  simpa using this

lemma unitSegment (u : Chars) (hu : u ∈ unitLits) (rest : Chars) :
    (matchUnit ((' ' :: (u ++ ' ' :: 'x' :: rest)).dropWhile Char.isWhitespace)).dropWhile
      Char.isWhitespace = 'x' :: rest := by
  simp only [unitLits, List.map, List.mem_cons, List.not_mem_nil, or_false] at hu
  rcases hu with rfl | rfl | rfl | rfl | rfl | rfl | rfl <;> rfl

lemma matchAt_fragment (qty u p t : Chars) (hu : u ∈ unitLits)
    (hq : qty ≠ []) (hqc : ∀ c ∈ qty, isClassChar c = true)
    (hp : p ≠ []) (hpc : ∀ c ∈ p, isClassChar c = true)
    (ht : t ≠ []) (htc : ∀ c ∈ t, isClassChar c = true) :
    matchAt (qty ++ ' ' :: (u ++ ' ' :: 'x' :: ' ' :: (p ++ ' ' :: t)))
      = some (qty, p, t) := by
  have h1 := takeWhile_append_of isClassChar qty
    (' ' :: (u ++ ' ' :: 'x' :: ' ' :: (p ++ ' ' :: t))) hqc
    (by intro c hc; simp at hc; subst hc; rfl)
  obtain ⟨pc, p', rfl⟩ := List.exists_cons_of_ne_nil hp
  obtain ⟨tc, t', rfl⟩ := List.exists_cons_of_ne_nil ht
  have hpcc : isClassChar pc = true := hpc pc (by simp)
  have htcc : isClassChar tc = true := htc tc (by simp)
  have h2 := takeWhile_append_of isClassChar (pc :: p') (' ' :: tc :: t') hpc
    (by intro c hc; simp at hc; subst hc; rfl)
  simp only [matchAt, h1.1, h1.2, isEmpty_false_of_ne hq, Bool.false_eq_true, if_false]
  rw [unitSegment u hu]
  simp only [Char.reduceBEq, Bool.false_or, Bool.or_self, if_true]
  have hr4 : ((' ' :: (pc :: p' ++ ' ' :: tc :: t')).dropWhile Char.isWhitespace)
      = pc :: p' ++ ' ' :: tc :: t' := by
    simp [List.dropWhile_cons, class_not_ws hpcc]
  rw [hr4]
  have h6 : List.takeWhile Char.isWhitespace (' ' :: tc :: t')
      = ' ' :: List.takeWhile Char.isWhitespace (tc :: t') := by
    simp [List.takeWhile_cons]
  have hr5 : List.dropWhile Char.isWhitespace (' ' :: tc :: t') = tc :: t' := by
    simp [List.dropWhile_cons, class_not_ws htcc]
  have h7 : List.takeWhile isClassChar (tc :: t') = tc :: t' :=
    takeWhile_all isClassChar (tc :: t') htc
  simp only [h2.1, h2.2, h6, hr5, h7, List.isEmpty_cons, Bool.true_or, if_true,
    Bool.false_eq_true, if_false]

lemma searchMulti_fragment (qty u p t : Chars) (hu : u ∈ unitLits)
    (hq : qty ≠ []) (hqc : ∀ c ∈ qty, isClassChar c = true)
    (hp : p ≠ []) (hpc : ∀ c ∈ p, isClassChar c = true)
    (ht : t ≠ []) (htc : ∀ c ∈ t, isClassChar c = true) :
    searchMulti (qty ++ ' ' :: (u ++ ' ' :: 'x' :: ' ' :: (p ++ ' ' :: t)))
      = some (qty, p, t) := by
  have hm := matchAt_fragment qty u p t hu hq hqc hp hpc ht htc
  obtain ⟨qc, qty', rfl⟩ := List.exists_cons_of_ne_nil hq
  rw [List.cons_append] at hm ⊢
  rw [searchMulti, hm]

lemma strategyA_fragment (line qty u p t : Chars) (q tv : ℚ) (hu : u ∈ unitLits)
    (hq : qty ≠ []) (hqc : ∀ c ∈ qty, isClassChar c = true)
    (hp : p ≠ []) (hpc : ∀ c ∈ p, isClassChar c = true)
    (ht : t ≠ []) (htc : ∀ c ∈ t, isClassChar c = true)
    (hqparse : parseDec (commaToDot qty) = some q)
    (htparse : parseDec (ocrFixTotal (commaToDot t)) = some tv)
    (hname : 3 < (cleanItemName line).length) (hpos : 0 < tv) :
    strategyA line (qty ++ ' ' :: (u ++ ' ' :: 'x' :: ' ' :: (p ++ ' ' :: t)))
      = some ⟨cleanItemName line, q, tv⟩ := by
  rw [strategyA, searchMulti_fragment qty u p t hu hq hqc hp hpc ht htc]
  dsimp only
  rw [hqparse, htparse]
  dsimp only
  simp [hname, hpos]

/-- Claim C6: for every two-line fragment whose second line has the exact shape
`<qty> <unit> x <unit_price> <total>` — unit one of Kg/Un/Gf/L/M/PC/SC, the three
numeric tokens nonempty strings over `[0-9,.]` — and whose first (name) line passes
extract_items' guards, the scan emits exactly one item: the quantity is the Decimal
parse of the comma-fixed qty token (hypothesis hqparse), the price is the Decimal
parse of the comma-fixed total token after ocrFixTotal — which inserts a decimal
point before the last two digits exactly when the token has no separator and is
longer than 3 characters (hypothesis htparse) — and the consumed quantity line is
not re-scanned (no second item is produced from it). -/
theorem c6_two_line_fragment (line qty u p t : Chars) (q tv : ℚ)
    (hu : u ∈ unitLits)
    (hq : qty ≠ []) (hqc : ∀ c ∈ qty, isClassChar c = true)
    (hp : p ≠ []) (hpc : ∀ c ∈ p, isClassChar c = true)
    (ht : t ≠ []) (htc : ∀ c ∈ t, isClassChar c = true)
    (hlen : 5 ≤ line.length) (hkw : containsKeyword line = false)
    (hname : 3 < (cleanItemName line).length)
    (hqparse : parseDec (commaToDot qty) = some q)
    (htparse : parseDec (ocrFixTotal (commaToDot t)) = some tv)
    (hpos : 0 < tv) :
    extractLoop [line, qty ++ ' ' :: (u ++ ' ' :: 'x' :: ' ' :: (p ++ ' ' :: t))]
      = [⟨cleanItemName line, q, tv⟩] := by
  have hA := strategyA_fragment line qty u p t q tv hu hq hqc hp hpc ht htc
    hqparse htparse hname hpos
  rw [extractLoop, hA]
  have h5 : decide (line.length < 5) = false := decide_eq_false (not_lt.mpr hlen)
  simp [h5, hkw, extractLoop]

/-- Witness for C6: the fragment "001 2275 MUSS LACTOPAR" / "4,086 Kg x 26,90 15779";
quantity 4.086 and, via the dropped-decimal correction (no separator, 5 digits),
price 157.79. -/
theorem c6_two_line_fragment_witness :
    extractLoop ["001 2275 MUSS LACTOPAR".toList,
      "4,086".toList ++ ' ' :: ("Kg".toList ++ ' ' :: 'x' :: ' ' ::
        ("26,90".toList ++ ' ' :: "15779".toList))]
    = [⟨"MUSS LACTOPAR".toList, Rat.divInt 4086 1000, Rat.divInt 15779 100⟩] := by
  have h := c6_two_line_fragment "001 2275 MUSS LACTOPAR".toList "4,086".toList
    "Kg".toList "26,90".toList "15779".toList (Rat.divInt 4086 1000)
    (Rat.divInt 15779 100) (by decide) (by decide) (by decide) (by decide) (by decide)
    (by decide) (by decide) (by decide) (by decide) (by decide) (by decide) (by decide)
    (by decide)
  rw [h]
  decide

/- ===== Claim C2 ===== -/

/-- Claim C2 (code_bug evidence): recipe "R" is a pre-preparo recipe whose derived
ingredient is "D", and the update payload uses "D" itself as an ingredient line — a
derived-ingredient cycle.  update_recipe performs no cycle check: it succeeds and
re-inserts the recipe_ingredients link ("R", "D", 2), persisting the cyclic link,
instead of failing the operation with the offending id as the spec requires. -/
theorem c2_cycle_silently_persisted :
    (update_recipe c2store "NEWING" "NEWREF" "CODE" "R" c2payload).map
      (fun o => (o.derived_ingredient_id, o.links))
    = Except.ok (some "D", [("R", "D", (2 : ℚ))]) := by
  have hpack : isPackagingCat ("Pré-preparo".toList) = false := by decide
  simp only [update_recipe, c2store, c2payload]
  norm_num [materialize_pre_preparo_nutrition, calculate_recipe_totals, calcAcc,
    hpack, lineCost, effUnitPrice, Except.map, List.filterMap, nutriFold, nutriStep,
    nutriAccInit]

end RadarCMV
